import Mathlib

/-!
Shallow embedding of the polling-server sampling pipeline
(src/eww/polling-server/src/{cpu,memory,network,disk,constants,main}.rs).

Machine integers (`u64`, `u32`, `u8`, `usize`) are modelled as `Nat`, with
explicit `% 2 ^ w` where the Rust code uses wrapping arithmetic
(`wrapping_mul`/`wrapping_add`) or an `as` truncating cast, and plain
`Nat` subtraction for `saturating_sub` (which it matches exactly).
`f64` values (rates, elapsed seconds, `max_rate`) are modelled as `ℚ`.
Byte buffers are `List Nat` (byte values), device names are `List Char`
(the names handled are ASCII, so `str` byte indexing coincides with
character indexing).
-/

/-- Constant from constants.rs / main.rs: minimum elapsed time `1e-8`. -/
def MIN_ELAPSED : ℚ := 1 / 100000000

/-- Constant from constants.rs: `RATE_DECAY_TIME_SECS = 10.0`. -/
def RATE_DECAY_TIME_SECS : ℚ := 10

/-- Constant from constants.rs / main.rs: `DISK_SECTOR_SIZE = 512`. -/
def DISK_SECTOR_SIZE : Nat := 512

/-- CPU counter pair from main.rs (`struct CpuCounters`). -/
structure CpuCounters where
  total : Nat
  idle : Nat
deriving DecidableEq

/-- cpu.rs `calculate_cpu_usage`: previous sample option, current total and
idle ticks; `saturating_sub` is `Nat` subtraction, `100 * active` is u64
multiplication (wraps modulo `2 ^ 64` on overflow), and the `as u32` cast
truncates modulo `2 ^ 32`. -/
def calculate_cpu_usage (prev : Option CpuCounters) (total idle : Nat) : Nat :=
  match prev with
  | none => 0
  | some prev_sample =>
    let total_diff := total - prev_sample.total
    if total_diff = 0 then 0
    else
      let idle_diff := idle - prev_sample.idle
      let active := total_diff - idle_diff
      ((100 * active) % 2 ^ 64 / total_diff) % 2 ^ 32

/-- memory.rs `MemoryEntry` (fields of main.rs `struct MemoryEntry`). -/
structure MemoryEntry where
  total_kib : Nat
  available_kib : Nat
  used_percent : ℚ
deriving DecidableEq

/-- Byte-level line splitting shared by cpu.rs/memory.rs/network.rs loops:
iterate over the buffer, a line ends at a newline byte, and the final byte
acts as an implicit terminator (`i == data.len() - 1` with `end = i + 1`
when the byte is not a newline, `end = i` when it is). -/
def procLines : List Nat → List Nat → List (List Nat)
  | _, [] => []
  | acc, [b] => if b = 10 then [acc] else [acc ++ [b]]
  | acc, b :: rest =>
    if b = 10 then acc :: procLines [] rest else procLines (acc ++ [b]) rest

/-- memory.rs `parse_number_from_line`: first maximal run of ASCII digits,
accumulated with `wrapping_mul`/`wrapping_add` on u64. -/
def parse_number_from_line (line : List Nat) : Nat :=
  go 0 false line
where
  go : Nat → Bool → List Nat → Nat
  | num, _, [] => num
  | num, inNum, b :: rest =>
    if 48 ≤ b ∧ b ≤ 57 then go ((num * 10 + (b - 48)) % 2 ^ 64) true rest
    else if inNum then num else go num inNum rest

/-- Bytes of the `MemTotal:` line prefix. -/
def memTotalKey : List Nat := [77, 101, 109, 84, 111, 116, 97, 108, 58]

/-- Bytes of the `MemAvailable:` line prefix. -/
def memAvailKey : List Nat := [77, 101, 109, 65, 118, 97, 105, 108, 97, 98, 108, 101, 58]

/-- The line loop of memory.rs `collect_memory`: state is
`(total_kib, available_kib, found_total, found_available)`; the two Bools
are the two bits of the Rust `found_both` bitmask (bit 1 = MemTotal found,
bit 2 = MemAvailable found), and the early `break` once both bits are set
is the non-recursive return in the MemAvailable branch. -/
def memLoop : List (List Nat) → Nat → Nat → Bool → Bool → Nat × Nat × Bool × Bool
  | [], t, a, ft, fa => (t, a, ft, fa)
  | l :: rest, t, a, ft, fa =>
    if memTotalKey.isPrefixOf l ∧ ft = false then
      memLoop rest (parse_number_from_line l) a true fa
    else if memAvailKey.isPrefixOf l ∧ fa = false then
      if ft then (t, parse_number_from_line l, ft, true)
      else memLoop rest t (parse_number_from_line l) ft true
    else
      memLoop rest t a ft fa

/-- memory.rs `collect_memory`: returns `none` when `total_kib == 0` or
`found_both != 3`; otherwise `used_kib = total.saturating_sub(available)`
and `used_percent = used_kib * 100 / total_kib`. -/
def collect_memory (data : List Nat) : Option MemoryEntry :=
  let r := memLoop (procLines [] data) 0 0 false false
  let total_kib := r.1
  let available_kib := r.2.1
  if total_kib = 0 ∨ ¬(r.2.2.1 ∧ r.2.2.2) then none
  else
    let used_kib := total_kib - available_kib
    some ⟨total_kib, available_kib, ((used_kib : ℚ) * 100) / (total_kib : ℚ)⟩

/-- network.rs `struct NetCounters` (main.rs): previous rx/tx byte counters. -/
structure NetCounters where
  rx : Nat
  tx : Nat
deriving DecidableEq

/-- disk.rs `struct DiskCounters` (main.rs): previous read/write sector counters. -/
structure DiskCounters where
  read : Nat
  write : Nat
deriving DecidableEq

/-- The per-entity adaptive-baseline state: network.rs `NetworkDeviceState`
and disk.rs `DiskDeviceState` are two identical structs (`max_rate`,
`time_below_half_max`, and the has-seen-activity flag named
`has_had_traffic` resp. `has_had_io`); one structure embeds both. -/
structure DeviceState where
  max_rate : ℚ
  time_below_half_max : ℚ
  has_had_traffic : Bool
deriving DecidableEq

/-- `NetworkDeviceState::new` / `DiskDeviceState::new`: initial max rate 1.0. -/
def DeviceState.new : DeviceState := ⟨1, 0, false⟩

/-- The per-entity state update of one poll cycle, network.rs
`calculate_network_rates` lines 144-163 = disk.rs `calculate_disk_rates`
lines 135-154: mark activity if `combined_rate > 0`, raise `max_rate` on a
new peak (resetting `time_below_half_max`), accumulate
`time_below_half_max` while `combined < max_rate / 2`, reset it otherwise,
then halve `max_rate` once `time_below_half_max >= RATE_DECAY_TIME_SECS`.
`elapsed` is the already-floored (`elapsed.max(1e-8)`) cycle time. -/
def updateDeviceState (elapsed combined : ℚ) (s : DeviceState) : DeviceState :=
  let s1 := if 0 < combined then { s with has_had_traffic := true } else s
  let s2 :=
    if s1.max_rate < combined then
      { s1 with max_rate := combined, time_below_half_max := 0 }
    else if combined < s1.max_rate / 2 then
      { s1 with time_below_half_max := s1.time_below_half_max + elapsed }
    else
      { s1 with time_below_half_max := 0 }
  if RATE_DECAY_TIME_SECS ≤ s2.time_below_half_max then
    { s2 with max_rate := s2.max_rate / 2, time_below_half_max := 0 }
  else s2

/-- network.rs `calculate_network_throughput`: per-field rate is
`(current - previous) / elapsed` when the counter did not decrease,
`0.0` otherwise. -/
def calculate_network_throughput (rx_bytes tx_bytes prev_rx prev_tx : Nat)
    (elapsed : ℚ) : ℚ × ℚ :=
  let rx_rate := if prev_rx ≤ rx_bytes then ((rx_bytes - prev_rx : Nat) : ℚ) / elapsed else 0
  let tx_rate := if prev_tx ≤ tx_bytes then ((tx_bytes - prev_tx : Nat) : ℚ) / elapsed else 0
  (rx_rate, tx_rate)

/-- disk.rs `calculate_disk_io_rates`: like the network version but each
sector delta is scaled by `DISK_SECTOR_SIZE` bytes. -/
def calculate_disk_io_rates (read_sectors write_sectors prev_read prev_write : Nat)
    (elapsed : ℚ) : ℚ × ℚ :=
  let read_rate :=
    if prev_read ≤ read_sectors then
      ((read_sectors - prev_read : Nat) : ℚ) * (DISK_SECTOR_SIZE : ℚ) / elapsed
    else 0
  let write_rate :=
    if prev_write ≤ write_sectors then
      ((write_sectors - prev_write : Nat) : ℚ) * (DISK_SECTOR_SIZE : ℚ) / elapsed
    else 0
  (read_rate, write_rate)

/-- One interface's slice of network.rs `calculate_network_rates`:
`prev.entry(iface).or_insert(current)` (so a first observation deltas
against itself), rate computation, unconditional overwrite of the stored
counters with the current reading, device-state update with
`combined = rx_rate.max(tx_rate)`, and emission iff `has_had_traffic`
after the update. Returns (new stored counters, new state, emitted). -/
def netEntityCycle (elapsedRaw : ℚ) (rx_bytes tx_bytes : Nat)
    (prevOpt : Option NetCounters) (st : DeviceState) :
    NetCounters × DeviceState × Bool :=
  let elapsed := max elapsedRaw MIN_ELAPSED
  let counters := prevOpt.getD ⟨rx_bytes, tx_bytes⟩
  let rates := calculate_network_throughput rx_bytes tx_bytes counters.rx counters.tx elapsed
  let st' := updateDeviceState elapsed (max rates.1 rates.2) st
  (⟨rx_bytes, tx_bytes⟩, st', st'.has_had_traffic)

/-- One device's slice of disk.rs `calculate_disk_rates`, mirroring
`netEntityCycle` with sector counters and `calculate_disk_io_rates`. -/
def diskEntityCycle (elapsedRaw : ℚ) (read_sectors write_sectors : Nat)
    (prevOpt : Option DiskCounters) (st : DeviceState) :
    DiskCounters × DeviceState × Bool :=
  let elapsed := max elapsedRaw MIN_ELAPSED
  let counters := prevOpt.getD ⟨read_sectors, write_sectors⟩
  let rates := calculate_disk_io_rates read_sectors write_sectors counters.read counters.write elapsed
  let st' := updateDeviceState elapsed (max rates.1 rates.2) st
  (⟨read_sectors, write_sectors⟩, st', st'.has_had_traffic)

/-- The life of one entity's `DeviceState` across a list of poll cycles,
each given as (raw elapsed seconds, combined rate): the fold of
`updateDeviceState` from a start state, recording after each cycle the
emission decision `state.has_had_traffic` (network.rs line 166 /
disk.rs line 157). -/
def emitTrace : List (ℚ × ℚ) → DeviceState → List Bool
  | [], _ => []
  | c :: rest, s =>
    let s' := updateDeviceState (max c.1 MIN_ELAPSED) c.2 s
    s'.has_had_traffic :: emitTrace rest s'

/-- network.rs / disk.rs / main.rs `rate_to_level`: 0 for a non-positive
rate or reference, else `ceil(min(rate / reference, 1.0) * 10)` cast to
`u8` (the `as u8` cast saturates: negative to 0 via `Int.toNat`, above 255
clamped) and clamped to at most 10. -/
def rate_to_level (rate reference : ℚ) : Nat :=
  if rate ≤ 0 ∨ reference ≤ 0 then 0
  else
    let ratio := min (rate / reference) 1
    let level := min (Int.toNat ⌈ratio * 10⌉) 255
    min level 10

/-- Rust `str::rfind(char)`: index of the last occurrence of `c`. -/
def rfindChar (c : Char) : List Char → Option Nat
  | [] => none
  | x :: xs =>
    match rfindChar c xs with
    | some i => some (i + 1)
    | none => if x = c then some 0 else none

/-- The `matches!(name.chars().next(), Some('s') | Some('h') | Some('v'))`
check at the end of disk.rs `should_skip_device`. -/
def sdHdVd (name : List Char) : Bool :=
  match name.head? with
  | some 's' => true
  | some 'h' => true
  | some 'v' => true
  | _ => false

/-- disk.rs `should_skip_device`: skip loop/ram/dm- pseudo-devices; keep
names not ending in an ASCII digit; for digit-ending names, skip NVMe
partitions (a `p` followed only by digits) and names starting with
s/h/v (SD/HD/VD partition numbering); keep the rest. -/
def should_skip_device (name : List Char) : Bool :=
  if "loop".data.isPrefixOf name || "ram".data.isPrefixOf name
      || "dm-".data.isPrefixOf name then
    true
  else
    let last_char := name.getLastD ' '
    if ¬last_char.isDigit then false
    else
      match rfindChar 'p' name with
      | some p_pos =>
        if p_pos < name.length - 1 ∧ (name.drop (p_pos + 1)).all Char.isDigit then true
        else sdHdVd name
      | none => sdHdVd name

/-- main.rs `struct CpuEntry`. -/
structure CpuEntry where
  id : String
  usage : Nat
deriving DecidableEq

/-- main.rs `struct NetworkEntry`. -/
structure NetworkEntry where
  iface : String
  tx_level : Nat
  rx_level : Nat
  tx_mib_s : ℚ
  rx_mib_s : ℚ
deriving DecidableEq

/-- main.rs `struct DiskEntry`. -/
structure DiskEntry where
  device : String
  read_level : Nat
  write_level : Nat
  read_mib_s : ℚ
  write_mib_s : ℚ
deriving DecidableEq

/-- The comparator of main.rs line 158:
`net_entries.sort_by(|a, b| a.iface.cmp(&b.iface))`. -/
def netLe (a b : NetworkEntry) : Prop := a.iface ≤ b.iface

/-- The comparator of main.rs line 163:
`disk_entries.sort_by(|a, b| a.device.cmp(&b.device))`. -/
def diskLe (a b : DiskEntry) : Prop := a.device ≤ b.device

instance : DecidableRel netLe := fun a b =>
  inferInstanceAs (Decidable (a.iface ≤ b.iface))

instance : DecidableRel diskLe := fun a b =>
  inferInstanceAs (Decidable (a.device ≤ b.device))

/-- One cycle's snapshot (main.rs loop body): CPU entries in source order,
optional memory record, and the network and disk entry lists. -/
structure Snapshot where
  cpu : List CpuEntry
  memory : Option MemoryEntry
  net : List NetworkEntry
  disks : List DiskEntry

/-- The assembly step of main.rs lines 148-163: collected entries are kept
as-is except that network entries are sorted by interface name and disk
entries by device name (`sort_by` on the identifier field, modelled as a
comparison-based stable sort). -/
def assembleSnapshot (cpu : List CpuEntry) (memory : Option MemoryEntry)
    (net : List NetworkEntry) (disks : List DiskEntry) : Snapshot :=
  ⟨cpu, memory, List.insertionSort netLe net, List.insertionSort diskLe disks⟩

/-- Bytes of the input `MemTotal: 0 kB\nMemAvailable: 5 kB`: both required
fields present, with a MemTotal value of 0. -/
def memCexInput : List Nat :=
  [77, 101, 109, 84, 111, 116, 97, 108, 58, 32, 48, 32, 107, 66, 10,
   77, 101, 109, 65, 118, 97, 105, 108, 97, 98, 108, 101, 58, 32, 53, 32, 107, 66]

/-- Bytes of the input `MemTotal: 10000 kB\nMemAvailable: 20000 kB`. -/
def memWitnessInput : List Nat :=
  [77, 101, 109, 84, 111, 116, 97, 108, 58, 32, 49, 48, 48, 48, 48, 32, 107, 66, 10,
   77, 101, 109, 65, 118, 97, 105, 108, 97, 98, 108, 101, 58, 32, 50, 48, 48, 48, 48, 32, 107, 66]

/-! Helper lemmas shared by several claim proofs. -/

lemma natDivLe100 (x td : Nat) (hx : x ≤ 100 * td) (htd : td ≠ 0) : x / td ≤ 100 := by
  calc x / td ≤ 100 * td / td := Nat.div_le_div_right hx
    _ = 100 := by
      rw [Nat.mul_div_assoc _ (dvd_refl td), Nat.div_self (Nat.pos_of_ne_zero htd), Nat.mul_one]

lemma updateDeviceState_flag (e c : ℚ) (s : DeviceState) :
    (updateDeviceState e c s).has_had_traffic = (s.has_had_traffic || decide (0 < c)) := by
  simp only [updateDeviceState]
  split_ifs <;> simp_all

lemma updateDeviceState_pos (e c : ℚ) (s : DeviceState) (hs : 0 < s.max_rate) :
    0 < (updateDeviceState e c s).max_rate := by
  simp only [updateDeviceState]
  have h1 : (if 0 < c then { s with has_had_traffic := true } else s).max_rate = s.max_rate := by
    split <;> rfl
  split_ifs <;> simp_all <;> linarith

lemma updateDeviceState_idle (e R a : ℚ) (f : Bool) (hR : 0 < R) :
    updateDeviceState e 0 (⟨R, a, f⟩ : DeviceState) =
      if (10 : ℚ) ≤ a + e then ⟨R / 2, 0, f⟩ else ⟨R, a + e, f⟩ := by
  simp only [updateDeviceState, RATE_DECAY_TIME_SECS]
  rw [if_neg (lt_irrefl (0 : ℚ))]
  dsimp only
  rw [if_neg (not_lt.mpr hR.le), if_pos (half_pos hR)]

/-- Claim C10: for every previous CPU counter pair and every current
(total, idle) reading — including decreasing counters and tick values
near the 64-bit maximum, where `100 * active` wraps modulo `2 ^ 64` —
the computed CPU usage value lies in the interval [0, 100]. -/
theorem c10_cpu_usage_bounded (prev : Option CpuCounters) (total idle : Nat) :
    0 ≤ calculate_cpu_usage prev total idle ∧ calculate_cpu_usage prev total idle ≤ 100 := by
  refine ⟨Nat.zero_le _, ?_⟩
  match prev with
  | none => simp [calculate_cpu_usage]
  | some p =>
    simp only [calculate_cpu_usage]
    split
    · exact Nat.zero_le _
    · rename_i h
      have hle : (100 * (total - p.total - (idle - p.idle))) % 2 ^ 64 ≤ 100 * (total - p.total) :=
        le_trans (Nat.mod_le _ _) (Nat.mul_le_mul_left 100 (Nat.sub_le _ _))
      have hd := natDivLe100 _ _ hle h
      calc _ ≤ (100 * (total - p.total - (idle - p.idle))) % 2 ^ 64 / (total - p.total) :=
            Nat.mod_le _ _
        _ ≤ 100 := hd

/-- Claim C4, counterexample: with previous counters (0, 0) and a current
total of `2 ^ 63`, the `100 * active` u64 multiplication wraps, so the code
computes usage 0 while the claimed formula `100 * active / total_delta`
gives 100. -/
theorem c4_counterexample :
    calculate_cpu_usage (some ⟨0, 0⟩) (2 ^ 63) 0 = 0 ∧
      100 * ((2 ^ 63 - 0) - (0 - 0)) / (2 ^ 63 - 0) = 100 := by decide

/-- Claim C4, amended: CPU usage is 0 with no previous sample and 0 when
`total_delta = 0`; otherwise it equals `100 * active / total_delta` with
both differences saturating-subtracted, provided the product `100 * active`
does not overflow u64 (under overflow the product wraps modulo `2 ^ 64`). -/
theorem c4_cpu_usage_formula (p : CpuCounters) (total idle : Nat) :
    calculate_cpu_usage none total idle = 0
    ∧ (total - p.total = 0 → calculate_cpu_usage (some p) total idle = 0)
    ∧ (total - p.total ≠ 0 → 100 * (total - p.total - (idle - p.idle)) < 2 ^ 64 →
        calculate_cpu_usage (some p) total idle =
          100 * (total - p.total - (idle - p.idle)) / (total - p.total)) := by
  refine ⟨rfl, ?_, ?_⟩
  · intro h; simp [calculate_cpu_usage, h]
  · intro h hlt
    simp only [calculate_cpu_usage]
    rw [if_neg h, Nat.mod_eq_of_lt hlt, Nat.mod_eq_of_lt]
    have hb : 100 * (total - p.total - (idle - p.idle)) ≤ 100 * (total - p.total) :=
      Nat.mul_le_mul_left 100 (Nat.sub_le _ _)
    exact lt_of_le_of_lt (natDivLe100 _ _ hb h) (by norm_num)

/-- Claim C4, witness: at previous (1000, 100) and current (2000, 600) the
hypotheses hold and the formula yields 50 percent. -/
theorem c4_witness : calculate_cpu_usage (some ⟨1000, 100⟩) 2000 600 = 50 := by
  have h := (c4_cpu_usage_formula ⟨1000, 100⟩ 2000 600).2.2 (by decide) (by decide)
  rw [h]; decide

/-- Claim C8: the disk device filter rejects loop5, ram3, dm-1, nvme0n1p2,
sda3, hdb7 and vdc12, keeps nvme0n1, sda and vda, and keeps every name not
ending in a decimal digit unless it has a loop/ram/dm- pseudo-device
prefix. -/
theorem c8_device_filter :
    (should_skip_device "loop5".data = true ∧ should_skip_device "ram3".data = true
     ∧ should_skip_device "dm-1".data = true ∧ should_skip_device "nvme0n1p2".data = true
     ∧ should_skip_device "sda3".data = true ∧ should_skip_device "hdb7".data = true
     ∧ should_skip_device "vdc12".data = true ∧ should_skip_device "nvme0n1".data = false
     ∧ should_skip_device "sda".data = false ∧ should_skip_device "vda".data = false)
    ∧ (∀ name : List Char, (name.getLastD ' ').isDigit = false →
        should_skip_device name =
          ("loop".data.isPrefixOf name || "ram".data.isPrefixOf name
            || "dm-".data.isPrefixOf name)) := by
  refine ⟨by decide, ?_⟩
  intro name h
  simp only [List.getLastD_eq_getLast?] at h
  simp only [should_skip_device]
  cases hb : ("loop".data.isPrefixOf name || "ram".data.isPrefixOf name
      || "dm-".data.isPrefixOf name) <;> simp [hb, h]

/-- Claim C8, witness: the digit-free name sdx is kept (the general part of
the filter theorem applied at a concrete name). -/
theorem c8_witness : should_skip_device "sdx".data = false := by
  have h := c8_device_filter.2 "sdx".data (by decide)
  rw [h]; decide

/-- Claim C6: the level function gives 10 at rate equal to a positive
baseline, 0 at rate 0, is monotone in the rate for a fixed positive
baseline, always lies in [0, 10] (levels are naturals, so nonnegativity is
inherent), and gives 0 for a non-positive rate or baseline. -/
theorem c6_level_properties :
    (∀ R : ℚ, 0 < R → rate_to_level R R = 10)
    ∧ (∀ x : ℚ, rate_to_level 0 x = 0)
    ∧ (∀ reference r1 r2 : ℚ, 0 < reference → r1 ≤ r2 →
        rate_to_level r1 reference ≤ rate_to_level r2 reference)
    ∧ (∀ rate reference : ℚ, rate_to_level rate reference ≤ 10)
    ∧ (∀ rate reference : ℚ, rate ≤ 0 ∨ reference ≤ 0 → rate_to_level rate reference = 0) := by
  refine ⟨?_, ?_, ?_, ?_, ?_⟩
  · intro R hR
    simp only [rate_to_level]
    rw [if_neg (by push_neg; exact ⟨hR, hR⟩), div_self (ne_of_gt hR)]
    norm_num
    decide
  · intro x
    simp [rate_to_level]
  · intro reference r1 r2 href h12
    by_cases h1 : r1 ≤ 0
    · simp [rate_to_level, h1]
    · push_neg at h1
      simp only [rate_to_level]
      rw [if_neg (by push_neg; exact ⟨h1, href⟩),
        if_neg (by push_neg; exact ⟨lt_of_lt_of_le h1 h12, href⟩)]
      refine min_le_min (min_le_min ?_ le_rfl) le_rfl
      refine Int.toNat_le_toNat (Int.ceil_le_ceil ?_)
      refine mul_le_mul_of_nonneg_right ?_ (by norm_num)
      exact min_le_min (div_le_div_of_nonneg_right h12 href.le) le_rfl
  · intro rate reference
    simp only [rate_to_level]
    split
    · exact Nat.zero_le _
    · exact Nat.min_le_right _ _
  · intro rate reference h
    simp [rate_to_level, h]

/-- Claim C6, witness: the level properties applied at concrete rates and
baselines. -/
theorem c6_witness :
    rate_to_level 4 4 = 10 ∧ rate_to_level 1 2 ≤ rate_to_level 2 2
      ∧ rate_to_level (-1) 5 = 0 :=
  ⟨c6_level_properties.1 4 (by norm_num),
   c6_level_properties.2.2.1 2 1 2 (by norm_num) (by norm_num),
   c6_level_properties.2.2.2.2 (-1) 5 (Or.inl (by norm_num))⟩

/-- Claim C1, counterexample: starting from the initial state
(`max_rate = 1.0`), four idle 3-second cycles accumulate 12 seconds below
half of the baseline and halve `max_rate` to 0.5, below the claimed floor
of 1.0 — the code has no 1.0 floor. -/
theorem c1_counterexample :
    DeviceState.new.max_rate = 1 ∧
      ((([((3 : ℚ), (0 : ℚ)), (3, 0), (3, 0), (3, 0)]).foldl
        (fun s c => updateDeviceState (max c.1 MIN_ELAPSED) c.2 s)
        DeviceState.new)).max_rate < 1 := by
  have hm : max (3 : ℚ) MIN_ELAPSED = 3 := max_eq_left (by norm_num [MIN_ELAPSED])
  have h1 : updateDeviceState 3 0 ⟨1, 0, false⟩ = ⟨1, 3, false⟩ := by
    norm_num [updateDeviceState, RATE_DECAY_TIME_SECS]
  have h2 : updateDeviceState 3 0 ⟨1, 3, false⟩ = ⟨1, 6, false⟩ := by
    norm_num [updateDeviceState, RATE_DECAY_TIME_SECS]
  have h3 : updateDeviceState 3 0 ⟨1, 6, false⟩ = ⟨1, 9, false⟩ := by
    norm_num [updateDeviceState, RATE_DECAY_TIME_SECS]
  have h4 : updateDeviceState 3 0 ⟨1, 9, false⟩ = ⟨1 / 2, 0, false⟩ := by
    norm_num [updateDeviceState, RATE_DECAY_TIME_SECS]
  refine ⟨rfl, ?_⟩
  simp only [List.foldl, hm, DeviceState.new, h1, h2, h3, h4]
  norm_num

/-- Claim C1, amended: the adaptive baseline `max_rate` starts at 1.0 and
stays strictly positive after every poll cycle's update, but it has no
floor of 1.0 — decay halving can take it below 1.0. -/
theorem c1_max_rate_stays_positive (cycles : List (ℚ × ℚ)) :
    0 < ((cycles.foldl (fun s c => updateDeviceState (max c.1 MIN_ELAPSED) c.2 s)
      DeviceState.new)).max_rate := by
  have h : ∀ (l : List (ℚ × ℚ)) (s : DeviceState), 0 < s.max_rate →
      0 < (l.foldl (fun s c => updateDeviceState (max c.1 MIN_ELAPSED) c.2 s) s).max_rate := by
    intro l
    induction l with
    | nil => intro s hs; exact hs
    | cons c rest ih =>
      intro s hs
      exact ih _ (updateDeviceState_pos _ _ _ hs)
  exact h cycles DeviceState.new (by norm_num [DeviceState.new])

lemma c5_aux (R : ℚ) (f : Bool) (hR : 0 < R) :
    ∀ (ts : List ℚ) (a : ℚ), a < 10 →
      (∀ t ∈ ts, MIN_ELAPSED ≤ t) →
      (∀ n, n < ts.length → a + (ts.take n).sum < 10) →
      (10 : ℚ) ≤ a + ts.sum →
      ts.foldl (fun s t => updateDeviceState (max t MIN_ELAPSED) 0 s) ⟨R, a, f⟩ = ⟨R / 2, 0, f⟩
  | [], a, ha, _, _, hsum => by
    simp only [List.sum_nil, add_zero] at hsum
    exact absurd hsum (by linarith)
  | t :: rest, a, ha, hmin, hpre, hsum => by
    have hmt : max t MIN_ELAPSED = t := max_eq_left (hmin t (by simp))
    simp only [List.foldl, hmt]
    rw [updateDeviceState_idle t R a f hR]
    by_cases h10 : (10 : ℚ) ≤ a + t
    · rw [if_pos h10]
      have hrest : rest = [] := by
        cases rest with
        | nil => rfl
        | cons r rs =>
          have h1 := hpre 1 (by simp)
          simp only [List.take, List.sum_cons, List.sum_nil, add_zero] at h1
          linarith
      subst hrest
      simp
    · rw [if_neg h10]
      apply c5_aux R f hR rest (a + t)
      · linarith [not_le.mp h10]
      · exact fun u hu => hmin u (List.mem_cons_of_mem _ hu)
      · intro n hn
        have := hpre (n + 1) (by simpa using Nat.succ_lt_succ hn)
        simp only [List.take, List.sum_cons] at this
        linarith
      · simp only [List.sum_cons] at hsum
        linarith

/-- Claim C5: from a state reached right after `max_rate` was raised to
`R` (so `time_below_half_max = 0`), a run of cycles with combined rate 0
whose elapsed times (each at least the 1e-8 floor) accumulate to at least
`RATE_DECAY_TIME_SECS = 10` seconds — crossing the threshold only at the
last cycle — leaves the state with `max_rate = R / 2` and
`time_below_half_max = 0`. -/
theorem c5_decay_halves_max_rate (R : ℚ) (f : Bool) (ts : List ℚ) (hR : 0 < R)
    (hmin : ∀ t ∈ ts, MIN_ELAPSED ≤ t)
    (hpre : ∀ n, n < ts.length → (ts.take n).sum < RATE_DECAY_TIME_SECS)
    (hsum : RATE_DECAY_TIME_SECS ≤ ts.sum) :
    ts.foldl (fun s t => updateDeviceState (max t MIN_ELAPSED) 0 s) ⟨R, 0, f⟩
      = ⟨R / 2, 0, f⟩ := by
  apply c5_aux R f hR ts 0 (by norm_num) hmin
  · intro n hn
    have := hpre n hn
    rw [RATE_DECAY_TIME_SECS] at this
    linarith
  · rw [RATE_DECAY_TIME_SECS] at hsum
    linarith

/-- Claim C5, witness: a baseline of 4 and a single idle 12-second cycle
halve the baseline to 2 and reset the decay timer. -/
theorem c5_witness :
    ([(12 : ℚ)].foldl (fun s t => updateDeviceState (max t MIN_ELAPSED) 0 s)
      (⟨4, 0, false⟩ : DeviceState)) = ⟨2, 0, false⟩ := by
  have h := c5_decay_halves_max_rate 4 false [12] (by norm_num)
    (by intro t ht; simp at ht; subst ht; norm_num [MIN_ELAPSED])
    (by intro n hn; simp at hn; subst hn; simp [RATE_DECAY_TIME_SECS])
    (by simp [RATE_DECAY_TIME_SECS]; norm_num)
  rw [h]
  norm_num

lemma emitTrace_getD (cycles : List (ℚ × ℚ)) :
    ∀ (s : DeviceState) (i : Nat), i < cycles.length →
      ((emitTrace cycles s).getD i false = true ↔
        s.has_had_traffic = true ∨ ∃ c ∈ cycles.take (i + 1), 0 < c.2) := by
  induction cycles with
  | nil => intro s i h; simp at h
  | cons c rest ih =>
    intro s i h
    match i with
    | 0 =>
      simp only [emitTrace, List.getD_cons_zero, List.take, updateDeviceState_flag]
      simp [Bool.or_eq_true, decide_eq_true_iff]
    | Nat.succ j =>
      have hj : j < rest.length := by simpa using Nat.lt_of_succ_lt_succ h
      simp only [emitTrace, List.getD_cons_succ]
      rw [ih _ j hj]
      simp only [updateDeviceState_flag, Bool.or_eq_true, decide_eq_true_iff, List.take,
        List.mem_cons]
      constructor
      · rintro ((hs | hc) | ⟨x, hx, hpx⟩)
        · exact Or.inl hs
        · exact Or.inr ⟨c, Or.inl rfl, hc⟩
        · exact Or.inr ⟨x, Or.inr hx, hpx⟩
      · rintro (hs | ⟨x, hx | hx, hpx⟩)
        · exact Or.inl (Or.inl hs)
        · exact Or.inl (Or.inr (hx ▸ hpx))
        · exact Or.inr ⟨x, hx, hpx⟩

/-- Claim C7: over the life of one entity (a list of cycles given as
elapsed time and combined rate, starting from the fresh state), the entity
is emitted at cycle i exactly when some cycle up to and including i had a
strictly positive combined rate: never before the first activity, and in
every cycle afterwards — the `has_had_traffic` flag is sticky. -/
theorem c7_emission_iff_past_activity (cycles : List (ℚ × ℚ)) (i : Nat)
    (h : i < cycles.length) :
    (emitTrace cycles DeviceState.new).getD i false = true ↔
      ∃ c ∈ cycles.take (i + 1), 0 < c.2 := by
  rw [emitTrace_getD cycles DeviceState.new i h]
  simp [DeviceState.new]

/-- Claim C7, witness: an idle first cycle followed by an active one makes
the entity emitted at the second cycle. -/
theorem c7_witness :
    (emitTrace [((1 : ℚ), (0 : ℚ)), (1, 5)] DeviceState.new).getD 1 false = true :=
  (c7_emission_iff_past_activity [(1, 0), (1, 5)] 1 (by norm_num)).mpr
    ⟨(1, 5), by norm_num, by norm_num⟩

/-- Claim C3: for both network byte counters and disk sector counters, a
current reading strictly below the stored previous reading yields a rate
of exactly 0 for that field this cycle, while the stored previous value is
nevertheless overwritten with the new lower reading. -/
theorem c3_counter_reset_zero_rate (e : ℚ) (rx tx prx ptx rs ws prs pws : Nat)
    (stn std : DeviceState) :
    ((netEntityCycle e rx tx (some ⟨prx, ptx⟩) stn).1 = ⟨rx, tx⟩)
    ∧ (rx < prx → (calculate_network_throughput rx tx prx ptx (max e MIN_ELAPSED)).1 = 0)
    ∧ (tx < ptx → (calculate_network_throughput rx tx prx ptx (max e MIN_ELAPSED)).2 = 0)
    ∧ ((diskEntityCycle e rs ws (some ⟨prs, pws⟩) std).1 = ⟨rs, ws⟩)
    ∧ (rs < prs → (calculate_disk_io_rates rs ws prs pws (max e MIN_ELAPSED)).1 = 0)
    ∧ (ws < pws → (calculate_disk_io_rates rs ws prs pws (max e MIN_ELAPSED)).2 = 0) := by
  refine ⟨rfl, ?_, ?_, rfl, ?_, ?_⟩
  · intro h
    simp [calculate_network_throughput, Nat.not_le.mpr h]
  · intro h
    simp [calculate_network_throughput, Nat.not_le.mpr h]
  · intro h
    simp [calculate_disk_io_rates, Nat.not_le.mpr h]
  · intro h
    simp [calculate_disk_io_rates, Nat.not_le.mpr h]

/-- Claim C3, witness: concrete counter resets (current 500 below previous
1000 and current 1000 below previous 2000) give zero rates and overwritten
previous counters. -/
theorem c3_witness :
    ((netEntityCycle 1 500 1000 (some ⟨1000, 2000⟩) DeviceState.new).1
      = (⟨500, 1000⟩ : NetCounters))
    ∧ (calculate_network_throughput 500 1000 1000 2000 (max 1 MIN_ELAPSED)).1 = 0
    ∧ (calculate_network_throughput 500 1000 1000 2000 (max 1 MIN_ELAPSED)).2 = 0
    ∧ ((diskEntityCycle 1 500 1000 (some ⟨1000, 2000⟩) DeviceState.new).1
      = (⟨500, 1000⟩ : DiskCounters))
    ∧ (calculate_disk_io_rates 500 1000 1000 2000 (max 1 MIN_ELAPSED)).1 = 0
    ∧ (calculate_disk_io_rates 500 1000 1000 2000 (max 1 MIN_ELAPSED)).2 = 0 := by
  obtain ⟨h1, h2, h3, h4, h5, h6⟩ :=
    c3_counter_reset_zero_rate 1 500 1000 1000 2000 500 1000 1000 2000
      DeviceState.new DeviceState.new
  exact ⟨h1, h2 (by decide), h3 (by decide), h4, h5 (by decide), h6 (by decide)⟩

/-- Claim C9: for every collection of parsed network and disk entries, in
any input order, the assembled snapshot's network list is sorted ascending
by interface name and its disk list ascending by device name (each being a
permutation of its input). -/
theorem c9_snapshot_sorted (cpu : List CpuEntry) (memory : Option MemoryEntry)
    (net : List NetworkEntry) (disks : List DiskEntry) :
    ((assembleSnapshot cpu memory net disks).net.Sorted netLe
      ∧ (assembleSnapshot cpu memory net disks).net.Perm net)
    ∧ ((assembleSnapshot cpu memory net disks).disks.Sorted diskLe
      ∧ (assembleSnapshot cpu memory net disks).disks.Perm disks) := by
  haveI : IsTotal NetworkEntry netLe := ⟨fun a b => le_total a.iface b.iface⟩
  haveI : IsTrans NetworkEntry netLe := ⟨fun _ _ _ hab hbc => le_trans hab hbc⟩
  haveI : IsTotal DiskEntry diskLe := ⟨fun a b => le_total a.device b.device⟩
  haveI : IsTrans DiskEntry diskLe := ⟨fun _ _ _ hab hbc => le_trans hab hbc⟩
  exact ⟨⟨List.sorted_insertionSort netLe net, List.perm_insertionSort netLe net⟩,
    ⟨List.sorted_insertionSort diskLe disks, List.perm_insertionSort diskLe disks⟩⟩

lemma keys_not_both (l : List Nat) (hT : memTotalKey.isPrefixOf l = true)
    (hA : memAvailKey.isPrefixOf l = true) : False := by
  rw [List.isPrefixOf_iff_prefix] at hT hA
  obtain ⟨t1, h1⟩ := hT
  obtain ⟨t2, h2⟩ := hA
  rw [← h1] at h2
  have := congrArg (fun l => l[3]?) h2
  simp [memTotalKey, memAvailKey] at this

lemma memLoop_both (lines : List (List Nat)) : ∀ t a,
    memLoop lines t a true true = (t, a, true, true) := by
  induction lines with
  | nil => intro t a; rfl
  | cons l rest ih =>
    intro t a
    simp [memLoop, ih]

lemma memLoop_t (lines : List (List Nat)) : ∀ t a,
    memLoop lines t a true false =
      match lines.find? (fun l => memAvailKey.isPrefixOf l) with
      | none => (t, a, true, false)
      | some la => (t, parse_number_from_line la, true, true) := by
  induction lines with
  | nil => intro t a; rfl
  | cons l rest ih =>
    intro t a
    cases hA : memAvailKey.isPrefixOf l
    · simp [memLoop, List.find?, hA, ih]
    · simp [memLoop, List.find?, hA]

lemma memLoop_a (lines : List (List Nat)) : ∀ t a,
    memLoop lines t a false true =
      match lines.find? (fun l => memTotalKey.isPrefixOf l) with
      | none => (t, a, false, true)
      | some lt_ => (parse_number_from_line lt_, a, true, true) := by
  induction lines with
  | nil => intro t a; rfl
  | cons l rest ih =>
    intro t a
    cases hT : memTotalKey.isPrefixOf l
    · simp [memLoop, List.find?, hT, ih]
    · simp [memLoop, List.find?, hT, memLoop_both]

lemma memLoop_main (lines : List (List Nat)) : ∀ t a,
    memLoop lines t a false false =
      match lines.find? (fun l => memTotalKey.isPrefixOf l),
        lines.find? (fun l => memAvailKey.isPrefixOf l) with
      | none, none => (t, a, false, false)
      | some lt_, none => (parse_number_from_line lt_, a, true, false)
      | none, some la => (t, parse_number_from_line la, false, true)
      | some lt_, some la =>
        (parse_number_from_line lt_, parse_number_from_line la, true, true) := by
  induction lines with
  | nil => intro t a; rfl
  | cons l rest ih =>
    intro t a
    cases hT : memTotalKey.isPrefixOf l
    · cases hA : memAvailKey.isPrefixOf l
      · simp [memLoop, List.find?, hT, hA, ih]
      · rw [show (l :: rest).find? (fun l => memTotalKey.isPrefixOf l)
            = rest.find? (fun l => memTotalKey.isPrefixOf l) by simp [List.find?, hT],
          show (l :: rest).find? (fun l => memAvailKey.isPrefixOf l) = some l by
            simp [List.find?, hA]]
        rw [show memLoop (l :: rest) t a false false
            = memLoop rest t (parse_number_from_line l) false true by
          simp [memLoop, hT, hA]]
        rw [memLoop_a]
        cases hf : rest.find? (fun l => memTotalKey.isPrefixOf l) <;> simp [hf]
    · have hA : memAvailKey.isPrefixOf l = false := by
        cases hA2 : memAvailKey.isPrefixOf l
        · rfl
        · exact (keys_not_both l hT hA2).elim
      rw [show (l :: rest).find? (fun l => memTotalKey.isPrefixOf l) = some l by
          simp [List.find?, hT],
        show (l :: rest).find? (fun l => memAvailKey.isPrefixOf l)
            = rest.find? (fun l => memAvailKey.isPrefixOf l) by simp [List.find?, hA]]
      rw [show memLoop (l :: rest) t a false false
          = memLoop rest (parse_number_from_line l) a true false by
        simp [memLoop, hT]]
      rw [memLoop_t]
      cases hf : rest.find? (fun l => memAvailKey.isPrefixOf l) <;> simp [hf]

/-- Claim C2, counterexample: an input holding both required fields but
with `MemTotal: 0` still yields no memory record (the code also rejects a
zero total), refuting "None exactly when at least one field is absent". -/
theorem c2_counterexample :
    collect_memory memCexInput = none
    ∧ ((procLines [] memCexInput).find? (fun l => memTotalKey.isPrefixOf l)).isSome = true
    ∧ ((procLines [] memCexInput).find? (fun l => memAvailKey.isPrefixOf l)).isSome = true := by
  refine ⟨?_, by decide, by decide⟩
  have h : memLoop (procLines [] memCexInput) 0 0 false false = (0, 5, true, true) := by decide
  simp [collect_memory, h]

/-- Claim C2, amended: the memory record is None exactly when a required
field (MemTotal, MemAvailable) is absent or the first MemTotal line's
value parses to 0; any produced record has
`used_percent = (total - available) * 100 / total` with saturating
subtraction, so `used_percent` is exactly 0 whenever MemAvailable is at
least MemTotal. -/
theorem c2_memory_none_characterization (data : List Nat) :
    (collect_memory data = none ↔
      ((procLines [] data).find? (fun l => memTotalKey.isPrefixOf l) = none
       ∨ (procLines [] data).find? (fun l => memAvailKey.isPrefixOf l) = none
       ∨ ∃ l, (procLines [] data).find? (fun l => memTotalKey.isPrefixOf l) = some l
           ∧ parse_number_from_line l = 0))
    ∧ (∀ m, collect_memory data = some m →
        m.used_percent = ((m.total_kib - m.available_kib : Nat) : ℚ) * 100 / (m.total_kib : ℚ)
        ∧ (m.total_kib ≤ m.available_kib → m.used_percent = 0)) := by
  have hmain := memLoop_main (procLines [] data) 0 0
  cases hT : (procLines [] data).find? (fun l => memTotalKey.isPrefixOf l) with
  | none =>
    cases hA : (procLines [] data).find? (fun l => memAvailKey.isPrefixOf l) with
    | none =>
      rw [hT, hA] at hmain
      exact ⟨by simp [collect_memory, hmain], fun m hm => by simp [collect_memory, hmain] at hm⟩
    | some la =>
      rw [hT, hA] at hmain
      exact ⟨by simp [collect_memory, hmain], fun m hm => by simp [collect_memory, hmain] at hm⟩
  | some lt_ =>
    cases hA : (procLines [] data).find? (fun l => memAvailKey.isPrefixOf l) with
    | none =>
      rw [hT, hA] at hmain
      exact ⟨by simp [collect_memory, hmain], fun m hm => by simp [collect_memory, hmain] at hm⟩
    | some la =>
      rw [hT, hA] at hmain
      by_cases h0 : parse_number_from_line lt_ = 0
      · constructor
        · simp [collect_memory, hmain, h0]
        · intro m hm
          simp [collect_memory, hmain, h0] at hm
      · constructor
        · simp [collect_memory, hmain, h0]
        · intro m hm
          simp only [collect_memory, hmain] at hm
          rw [if_neg (by simp [h0])] at hm
          cases hm
          refine ⟨rfl, ?_⟩
          intro hle
          simp [Nat.sub_eq_zero_of_le hle]

/-- Claim C2, witness: the spec's concrete example input with
MemAvailable greater than MemTotal produces a record with used percentage
exactly 0. -/
theorem c2_witness : (⟨10000, 20000, (0 : ℚ)⟩ : MemoryEntry).used_percent = 0 := by
  have hl : memLoop (procLines [] memWitnessInput) 0 0 false false
      = (10000, 20000, true, true) := by decide
  have hsub : (10000 - 20000 : Nat) = 0 := by decide
  have hc : collect_memory memWitnessInput = some ⟨10000, 20000, (0 : ℚ)⟩ := by
    simp [collect_memory, hl, hsub]
  exact ((c2_memory_none_characterization memWitnessInput).2 ⟨10000, 20000, 0⟩ hc).2 (by decide)
